import Mathlib

/-!
Verification of the retail-marketing-analytics pipeline against its
specification.  The three scripts (transform, data processing, clustering)
are shallowly embedded: each pandas or sklearn operation the claims depend
on is translated into a pure Lean function over lists of rows, and the
claims are settled as theorems about those functions.
-/

set_option autoImplicit false

/- ===================== Definitions ===================== -/

/-- A row of the raw transaction table, restricted to the columns the
scripts read: household key, basket id, day, sales value and the two
discount columns. -/
structure TransRow where
  household_id : Nat
  basket_id : Nat
  day : Nat
  sales_value : ℚ
  retail_disc : ℚ
  coupon_disc : ℚ
deriving DecidableEq

/-- The households present in the transaction table: the keys of the
groupby over household id. -/
def households (t : List TransRow) : List Nat :=
  (t.map (fun r => r.household_id)).dedup

/-- Grouped aggregate total_sales of one household: the sum of sales_value
over its transaction rows. -/
def totalSales (t : List TransRow) (hh : Nat) : ℚ :=
  ((t.filter (fun r => r.household_id == hh)).map (fun r => r.sales_value)).sum

/-- Grouped aggregate basket_count of one household: the number of distinct
basket ids among its transaction rows. -/
def basketCount (t : List TransRow) (hh : Nat) : Nat :=
  ((t.filter (fun r => r.household_id == hh)).map (fun r => r.basket_id)).dedup.length

/-- The derived column avg_basket_size: total_sales divided by basket_count. -/
def avgBasketSize (t : List TransRow) (hh : Nat) : ℚ :=
  totalSales t hh / (basketCount t hh : ℚ)

/-- One step of the interval binning performed by the cut operation of the
transform script: given the lower edge of the current bin, the remaining
finite upper edges paired with their labels, and the label of the final bin
whose upper edge is infinite, return the label of the half-open bin
containing x, or none when x is at or below the lowest edge. -/
def pdCutAux (lo : ℚ) (rest : List (ℚ × String)) (lastLabel : String) (x : ℚ) :
    Option String :=
  match rest with
  | [] => if lo < x then some lastLabel else none
  | p :: tl => if lo < x ∧ x ≤ p.1 then some p.2 else pdCutAux p.1 tl lastLabel x

/-- The sales segmentation of the transform script: cut with edges
0, 1000, 2500, 5000, infinity and labels Low, Avg, High, VIP. -/
def salesSegment (x : ℚ) : Option String :=
  pdCutAux 0 [(1000, "Low"), (2500, "Avg"), (5000, "High")] "VIP" x

/-- The segment column attached to a household by create_customer_features. -/
def salesSegmentOf (t : List TransRow) (hh : Nat) : Option String :=
  salesSegment (totalSales t hh)

/-- The data column sorted ascending, as the quantile computation orders it. -/
def sortQ (xs : List ℚ) : List ℚ :=
  xs.insertionSort (fun a b => a ≤ b)

/-- Order statistic i of the column (0 when out of range). -/
def nthSorted (xs : List ℚ) (i : Nat) : ℚ :=
  (sortQ xs).getD i 0

/-- The q-quantile of the column with the default linear interpolation: the
position is q times (length - 1); the value interpolates between the two
neighbouring order statistics. -/
def quantileLinear (xs : List ℚ) (q : ℚ) : ℚ :=
  if (Int.floor (q * ((xs.length : ℚ) - 1))).toNat + 1 < xs.length then
    nthSorted xs (Int.floor (q * ((xs.length : ℚ) - 1))).toNat
      + (q * ((xs.length : ℚ) - 1)
          - ((Int.floor (q * ((xs.length : ℚ) - 1))).toNat : ℚ))
        * (nthSorted xs ((Int.floor (q * ((xs.length : ℚ) - 1))).toNat + 1)
            - nthSorted xs (Int.floor (q * ((xs.length : ℚ) - 1))).toNat)
  else nthSorted xs (Int.floor (q * ((xs.length : ℚ) - 1))).toNat

/-- The five quartile edges computed by the qcut call of the transform
script: the quantiles 0, 1/4, 1/2, 3/4 and 1 of the column. -/
def qcutEdges4 (xs : List ℚ) : List ℚ :=
  [quantileLinear xs 0, quantileLinear xs (1/4), quantileLinear xs (1/2),
   quantileLinear xs (3/4), quantileLinear xs 1]

/-- Bin search over the upper edges: the index (starting at i) of the first
upper edge that is at least x, none when x exceeds every edge. -/
def binIdxAux (rest : List ℚ) (i : Nat) (x : ℚ) : Option Nat :=
  match rest with
  | [] => none
  | hi :: tl => if x ≤ hi then some i else binIdxAux tl (i + 1) x

/-- The bin index of x among the edges: the lowest edge is included in the
first bin, every other bin is open below and closed above. -/
def qcutBinIdx (edges : List ℚ) (x : ℚ) : Option Nat :=
  match edges with
  | [] => none
  | e0 :: rest => if x < e0 then none else binIdxAux rest 0 x

/-- The frequency labels of the transform script, in bin order. -/
def freqLabels : List String :=
  ["Rare", "Occasional", "Frequent", "Very Frequent"]

/-- The qcut call of the transform script on the basket-count column:
compute the quartile edges; fail (outer none) when the edges are not
pairwise distinct, as qcut raises on duplicate bin edges; otherwise label
each value by its bin. -/
def qcut4 (xs : List ℚ) (x : ℚ) : Option (Option String) :=
  if (qcutEdges4 xs).Nodup then
    some ((qcutBinIdx (qcutEdges4 xs) x).bind (fun i => freqLabels[i]?))
  else none

/-- The basket-count column over all households, the series the qcut call
receives. -/
def basketCounts (t : List TransRow) : List ℚ :=
  (households t).map (fun hh => (basketCount t hh : ℚ))

/-- The frequency_segment column of create_customer_features: outer none
when the qcut call fails, otherwise the label of the household. -/
def frequencySegment (t : List TransRow) (hh : Nat) : Option (Option String) :=
  qcut4 (basketCounts t) ((basketCount t hh : ℚ))

/-- A one-row transaction table used to instantiate theorems with
hypotheses on concrete data. -/
def wTable1 : List TransRow := [⟨1, 10, 3, 500, 0, 0⟩]

/-- A transaction table whose five households have 1, 2, 3, 4 and 5
distinct baskets.  The quartile edges of the basket-count column are
1, 2, 3, 4, 5 (all distinct), yet the four buckets hold 2, 1, 1 and 1
households: the bucket populations are not equal. -/
def cexTable : List TransRow :=
  [⟨1, 1, 1, 1, 0, 0⟩,
   ⟨2, 1, 1, 1, 0, 0⟩, ⟨2, 2, 1, 1, 0, 0⟩,
   ⟨3, 1, 1, 1, 0, 0⟩, ⟨3, 2, 1, 1, 0, 0⟩, ⟨3, 3, 1, 1, 0, 0⟩,
   ⟨4, 1, 1, 1, 0, 0⟩, ⟨4, 2, 1, 1, 0, 0⟩, ⟨4, 3, 1, 1, 0, 0⟩,
   ⟨4, 4, 1, 1, 0, 0⟩,
   ⟨5, 1, 1, 1, 0, 0⟩, ⟨5, 2, 1, 1, 0, 0⟩, ⟨5, 3, 1, 1, 0, 0⟩,
   ⟨5, 4, 1, 1, 0, 0⟩, ⟨5, 5, 1, 1, 0, 0⟩]

/-- A cell of the customer-feature table: a string, a number, or missing. -/
inductive Cell
  | str : String → Cell
  | num : ℚ → Cell
  | null : Cell
deriving DecidableEq

/-- The fillna operation on a series: replace every missing cell by the
given value and keep every other cell unchanged. -/
def fillnaSeries (v : Cell) (s : List Cell) : List Cell :=
  s.map (fun c => if c = Cell.null then v else c)

/-- The value of a python expression that is either a series or None. -/
inductive PyVal
  | series : List Cell → PyVal
  | pyNone : PyVal
deriving DecidableEq

/-- The fillna method call with an inplace flag: when inplace is false the
expression evaluates to the filled series; when inplace is true the series
the method was invoked on is replaced by the filled series and the
expression itself evaluates to None. -/
def seriesFillna (s : List Cell) (v : Cell) (inplace : Bool) : List Cell × PyVal :=
  if inplace then (fillnaSeries v s, PyVal.pyNone)
  else (s, PyVal.series (fillnaSeries v s))

/-- Column assignment: a series value is written elementwise; the scalar
None is broadcast over the column, making every cell missing. -/
def assignColumn (n : Nat) (v : PyVal) : List Cell :=
  match v with
  | PyVal.series s => s
  | PyVal.pyNone => List.replicate n Cell.null

/-- The demographic imputation line of the data-processing script: the
column is assigned the result of fillna with the Unknown string and
inplace set to true; that method call evaluates to None, so the assignment
broadcasts None over the whole column. -/
def imputeDemographicCol (col : List Cell) : List Cell :=
  assignColumn col.length (seriesFillna col (Cell.str "Unknown") true).2

/-- The numeric columns the data-processing script lists for z-score
scaling.  The fourth name does not occur in the customer-feature table
produced by the transform script, whose recency column is named recency. -/
def num_cols : List String :=
  ["total_sales", "basket_count", "avg_basket_size", "days_since_last_purchase",
   "total_discount", "total_coupons_redeemed", "discount_ratio"]

/-- Lookup of a named column in a column-oriented numeric table. -/
def lookupCol (cols : List (String × List ℚ)) (c : String) : Option (List ℚ) :=
  match cols with
  | [] => none
  | p :: rest => if p.1 = c then some p.2 else lookupCol rest c

/-- The filtered selection of the script: the listed numeric names that are
actually present among the table columns. -/
def numCols2 (cols : List (String × List ℚ)) : List String :=
  num_cols.filter (fun c => (lookupCol cols c).isSome)

/-- The scaling step of the data-processing script: drop the selected
numeric columns from the encoded table and append them again transformed
by the fitted scaler; every column not selected passes through unchanged. -/
def scaleCols (scaler : List ℚ → List ℚ) (cols : List (String × List ℚ)) :
    List (String × List ℚ) :=
  cols.filter (fun p => !decide (p.1 ∈ numCols2 cols))
    ++ (numCols2 cols).filterMap
        (fun c => (lookupCol cols c).map (fun v => (c, scaler v)))

/-- Squared euclidean distance between two feature vectors. -/
def sqDist (p q : List ℚ) : ℚ :=
  ((p.zip q).map (fun x => (x.1 - x.2) ^ 2)).sum

/-- Index of the first minimum of a nonempty list of distances (0 on the
empty list): the cluster a point is assigned to. -/
def argminIdxAux (l : List ℚ) (i : Nat) (bv : ℚ) (best : Nat) : Nat :=
  match l with
  | [] => best
  | x :: xs => if x < bv then argminIdxAux xs (i + 1) x i
               else argminIdxAux xs (i + 1) bv best

def argminIdx (l : List ℚ) : Nat :=
  match l with
  | [] => 0
  | x :: xs => argminIdxAux xs 1 x 0

/-- The centroid-producing procedure of the clustering library, abstracted:
given a random seed, a cluster count k and the data, it returns the fitted
centroids, of which there are exactly k whenever the data has at least k
points. -/
structure KMeansModel where
  centroids : Nat → Nat → List (List ℚ) → List (List ℚ)
  centroids_len : ∀ s k d, k ≤ d.length → (centroids s k d).length = k

/-- Labels of fit_predict: each data point is assigned the index of its
nearest centroid. -/
def predictLabels (cents : List (List ℚ)) (data : List (List ℚ)) : List Nat :=
  data.map (fun p => argminIdx (cents.map (fun c => sqDist p c)))

/-- Inertia of a fitted model: the summed squared distance of every point
to its nearest centroid. -/
def minD (l : List ℚ) : ℚ :=
  match l with
  | [] => 0
  | [x] => x
  | x :: y :: xs => min x (minD (y :: xs))

def inertiaOf (cents : List (List ℚ)) (data : List (List ℚ)) : ℚ :=
  (data.map (fun p => minD (cents.map (fun c => sqDist p c)))).sum

/-- The elbow search range of the clustering script: k from 1 to 10. -/
def k_range : List Nat := (List.range 10).map (fun i => i + 1)

/-- The seed of every elbow-search fit and the seed of the final fit, as
the script passes them. -/
def elbowSeed : Nat := 37

def finalSeed : Nat := 42

/-- The recorded inertias of the elbow search, one fit per k in k_range,
in order. -/
def elbowInertias (M : KMeansModel) (data : List (List ℚ)) : List ℚ :=
  k_range.map (fun k => inertiaOf (M.centroids elbowSeed k data) data)

/-- The cluster count of the final model, fixed by the script. -/
def optimal_k : Nat := 5

/-- The labels of the final fit_predict call on the model-ready data. -/
def finalClusters (M : KMeansModel) (data : List (List ℚ)) : List Nat :=
  predictLabels (M.centroids finalSeed optimal_k data) data

/-- The original customer-feature table as the clustering script reloads
it: a header of column names and rows of cells. -/
structure DF where
  header : List String
  rows : List (List Cell)
deriving DecidableEq

/-- Attaching the cluster column: every row is extended by its label and
the header gains the cluster column. -/
def attachClusterCol (df : DF) (labels : List Nat) : DF :=
  ⟨df.header ++ ["cluster"],
   (df.rows.zip labels).map (fun rl => rl.1 ++ [Cell.num (rl.2 : ℚ)])⟩

/-- The whole clustering run on loaded inputs: the elbow inertias and the
segmented table written at the end. -/
def runClusteringScript (M : KMeansModel) (model : List (List ℚ)) (orig : DF) :
    List ℚ × DF :=
  (elbowInertias M model, attachClusterCol orig (finalClusters M model))

/-- A concrete centroid procedure: take the first k points as centroids
(an admissible instantiation of the abstract model). -/
def takeKModel : KMeansModel :=
  ⟨fun _ k d => d.take k, by
    intro s k d h
    simp [List.length_take]
    omega⟩

/-- Concrete model-ready data with five one-dimensional points. -/
def wModelData : List (List ℚ) := [[0], [10], [20], [30], [40]]

/-- Concrete original table with five rows. -/
def wOrigDF : DF :=
  ⟨["household_id"],
   [[Cell.num 1], [Cell.num 2], [Cell.num 3], [Cell.num 4], [Cell.num 5]]⟩

/-- The exact file names the transform script writes, in dictionary order
of the script: the eight processed raw tables and the five derived tables. -/
def datasets_to_save : List String :=
  ["campaign_desc_processed.csv", "campaign_table_processed.csv",
   "causal_data_processed.csv", "coupon_redempt_processed.csv",
   "coupon_processed.csv", "hh_demographic_processed.csv",
   "product_processed.csv", "transaction_data_processed.csv",
   "basket_fact.csv", "customer_features.csv", "segment_profile.csv",
   "product_segment_performance.csv", "top_products_by_segment.csv"]

/-- Events of a script run: an informational print, an error-message print,
a read attempt on a file, a transformation step, an output write. -/
inductive Ev
  | info : Ev
  | errMsg : Ev
  | readCsv : String → Ev
  | compute : Ev
  | writeCsv : String → Ev
deriving DecidableEq

/-- How a script run ends. -/
inductive Outcome
  | completed : Outcome
  | exitedWith : Nat → Outcome
  | uncaught : Outcome
deriving DecidableEq

/-- Whether an event is an output write. -/
def isWriteEv : Ev → Bool
  | Ev.writeCsv _ => true
  | _ => false

/-- The eight raw files the transform script reads, in read order. -/
def rawFiles : List String :=
  ["campaign_desc.csv", "campaign_table.csv", "causal_data.csv",
   "coupon_redempt.csv", "coupon.csv", "hh_demographic.csv",
   "product.csv", "transaction_data.csv"]

/-- Sequential reads: each file is attempted in order; a missing file
raises at its read attempt and later files are not attempted.  The flag
reports whether every read succeeded. -/
def readSeq (ex : String → Bool) : List String → List Ev × Bool
  | [] => ([], true)
  | f :: fs =>
      if ex f then
        let r := readSeq ex fs
        (Ev.readCsv f :: r.1, r.2)
      else ([Ev.readCsv f], false)

/-- The transform script run: two informational prints happen first, then
the eight raw reads.  There is no handler, so a missing file ends the run
with an uncaught exception before any derived computation or write;
otherwise the derived tables are computed and the thirteen outputs are
written. -/
def transformRun (ex : String → Bool) : List Ev × Outcome :=
  let r := readSeq ex rawFiles
  if r.2 then
    (Ev.info :: Ev.info :: r.1 ++ Ev.compute ::
       datasets_to_save.map (fun f => Ev.writeCsv f), Outcome.completed)
  else
    (Ev.info :: Ev.info :: r.1, Outcome.uncaught)

def cfPath : String := "customer_features.csv"

def modelReadyPath : String := "model_ready_features.csv"

def segmentsPath : String := "customer_segments.csv"

/-- The data-processing script run: the script checks whether the input
exists and, when it does not, prints a not-found message without exiting;
the following unguarded read then raises on the missing file and the run
ends with an uncaught exception.  With the file present the script
computes and the main block writes the model-ready output. -/
def dataProcessingRun (ex : Bool) : List Ev × Outcome :=
  if ex then
    ([Ev.readCsv cfPath, Ev.info, Ev.compute, Ev.writeCsv modelReadyPath],
     Outcome.completed)
  else
    ([Ev.errMsg, Ev.readCsv cfPath], Outcome.uncaught)

/-- The clustering script run: both loads sit in a try block whose handler
prints an error message and exits with code 1; on success the script
computes and the main block writes the segmented output. -/
def clusteringRun (exModel exOrig : Bool) : List Ev × Outcome :=
  if exModel then
    if exOrig then
      ([Ev.readCsv modelReadyPath, Ev.info, Ev.readCsv cfPath, Ev.info,
        Ev.compute, Ev.writeCsv segmentsPath], Outcome.completed)
    else
      ([Ev.readCsv modelReadyPath, Ev.info, Ev.readCsv cfPath, Ev.errMsg],
       Outcome.exitedWith 1)
  else
    ([Ev.readCsv modelReadyPath, Ev.errMsg], Outcome.exitedWith 1)

/-- A state of the file system with no file present. -/
def noFiles : String → Bool := fun _ => false

/- ===================== Theorems ===================== -/

/-- C1: for every household present in the transaction table,
create_customer_features assigns the sales segment from total_sales by the
fixed thresholds: Low on (0, 1000], Avg on (1000, 2500], High on
(2500, 5000], VIP above 5000, and no segment when total_sales is at most 0. -/
theorem C1_sales_segment_thresholds (t : List TransRow) (hh : Nat)
    (hmem : hh ∈ households t) :
    (0 < totalSales t hh ∧ totalSales t hh ≤ 1000 →
      salesSegmentOf t hh = some "Low") ∧
    (1000 < totalSales t hh ∧ totalSales t hh ≤ 2500 →
      salesSegmentOf t hh = some "Avg") ∧
    (2500 < totalSales t hh ∧ totalSales t hh ≤ 5000 →
      salesSegmentOf t hh = some "High") ∧
    (5000 < totalSales t hh → salesSegmentOf t hh = some "VIP") ∧
    (totalSales t hh ≤ 0 → salesSegmentOf t hh = none) := by
  have key : ∀ x : ℚ,
      (0 < x ∧ x ≤ 1000 → salesSegment x = some "Low") ∧
      (1000 < x ∧ x ≤ 2500 → salesSegment x = some "Avg") ∧
      (2500 < x ∧ x ≤ 5000 → salesSegment x = some "High") ∧
      (5000 < x → salesSegment x = some "VIP") ∧
      (x ≤ 0 → salesSegment x = none) := by
    intro x
    simp only [salesSegment, pdCutAux]
    refine ⟨fun h => ?_, fun h => ?_, fun h => ?_, fun h => ?_, fun h => ?_⟩
    · rw [if_pos h]
    · rw [if_neg (by rintro ⟨-, hb⟩; linarith [h.1]), if_pos h]
    · rw [if_neg (by rintro ⟨-, hb⟩; linarith [h.1]),
        if_neg (by rintro ⟨-, hb⟩; linarith [h.1]), if_pos h]
    · rw [if_neg (by rintro ⟨-, hb⟩; linarith),
        if_neg (by rintro ⟨-, hb⟩; linarith),
        if_neg (by rintro ⟨-, hb⟩; linarith), if_pos h]
    · rw [if_neg (by rintro ⟨ha, -⟩; linarith),
        if_neg (by rintro ⟨ha, -⟩; linarith),
        if_neg (by rintro ⟨ha, -⟩; linarith),
        if_neg (by intro ha; linarith)]
  exact key (totalSales t hh)

/-- Witness for C1: household 1 of the concrete table has total sales 500
and is assigned the Low segment. -/
theorem C1_sales_segment_thresholds_witness :
    salesSegmentOf wTable1 1 = some "Low" :=
  (C1_sales_segment_thresholds wTable1 1 (by decide)).1
    (by norm_num [totalSales, wTable1, List.filter])

/-- C9: for every household present in the transaction table, basket_count
is at least 1, the rational divisor is nonzero, and avg_basket_size times
basket_count recovers total_sales, so the division is well defined. -/
theorem C9_basket_count_positive (t : List TransRow) (hh : Nat)
    (hmem : hh ∈ households t) :
    1 ≤ basketCount t hh ∧ ((basketCount t hh : ℚ) ≠ 0) ∧
    avgBasketSize t hh * (basketCount t hh : ℚ) = totalSales t hh := by
  obtain ⟨r, hr, hrhh⟩ : ∃ r ∈ t, r.household_id = hh := by
    simpa [households, List.mem_dedup, List.mem_map] using hmem
  have hfil : r ∈ t.filter (fun r => r.household_id == hh) := by
    simp [List.mem_filter, hr, hrhh]
  have hne : ((t.filter (fun r => r.household_id == hh)).map
      (fun r => r.basket_id)).dedup ≠ [] := by
    have hmm : r.basket_id ∈ (t.filter (fun r => r.household_id == hh)).map
        (fun r => r.basket_id) := List.mem_map_of_mem _ hfil
    intro hnil
    rw [List.dedup_eq_nil] at hnil
    rw [hnil] at hmm
    exact (List.not_mem_nil _) hmm
  have hpos : 1 ≤ basketCount t hh := by
    unfold basketCount
    exact Nat.succ_le_of_lt (List.length_pos.mpr hne)
  have hcast : ((basketCount t hh : ℚ) ≠ 0) :=
    Nat.cast_ne_zero.mpr (by omega)
  exact ⟨hpos, hcast, div_mul_cancel₀ _ hcast⟩

/-- Witness for C9: household 1 of the concrete table has one basket and a
well-defined average basket size. -/
theorem C9_basket_count_positive_witness :
    1 ≤ basketCount wTable1 1 ∧ ((basketCount wTable1 1 : ℚ) ≠ 0) ∧
    avgBasketSize wTable1 1 * (basketCount wTable1 1 : ℚ) = totalSales wTable1 1 :=
  C9_basket_count_positive wTable1 1 (by decide)

theorem sortQ_sorted (xs : List ℚ) : (sortQ xs).Sorted (fun a b => a ≤ b) :=
  List.sorted_insertionSort _ xs

theorem mem_sortQ {xs : List ℚ} {x : ℚ} (hx : x ∈ xs) : x ∈ sortQ xs :=
  (List.mem_insertionSort _).mpr hx

theorem length_sortQ (xs : List ℚ) : (sortQ xs).length = xs.length :=
  List.length_insertionSort _ xs

theorem getD_last_mem : ∀ (l : List ℚ), l ≠ [] → l.getD (l.length - 1) 0 ∈ l := by
  intro l
  induction l with
  | nil => intro h; exact absurd rfl h
  | cons a tl ih =>
    intro _
    cases tl with
    | nil => simp
    | cons b tl2 =>
      have hmem := ih (by simp)
      have hstep : (a :: b :: tl2).getD ((a :: b :: tl2).length - 1) 0
          = (b :: tl2).getD ((b :: tl2).length - 1) 0 := by
        simp [List.getD_cons_succ]
      rw [hstep]
      exact List.mem_cons_of_mem a hmem

theorem sorted_head_le {l : List ℚ} (hs : l.Sorted (fun a b => a ≤ b)) {x : ℚ}
    (hx : x ∈ l) : l.getD 0 0 ≤ x := by
  cases l with
  | nil => simp at hx
  | cons a tl =>
    rcases List.mem_cons.mp hx with rfl | h
    · simp
    · simpa using List.rel_of_sorted_cons hs x h

theorem sorted_le_last : ∀ (l : List ℚ), l.Sorted (fun a b => a ≤ b) →
    ∀ x ∈ l, x ≤ l.getD (l.length - 1) 0 := by
  intro l
  induction l with
  | nil => intro _ x hx; simp at hx
  | cons a tl ih =>
    intro hs x hx
    cases tl with
    | nil =>
      simp only [List.mem_singleton] at hx
      subst hx
      simp
    | cons b tl2 =>
      have hsk : (b :: tl2).Sorted (fun a b => a ≤ b) := hs.of_cons
      have hstep : (a :: b :: tl2).getD ((a :: b :: tl2).length - 1) 0
          = (b :: tl2).getD ((b :: tl2).length - 1) 0 := by
        simp [List.getD_cons_succ]
      rcases List.mem_cons.mp hx with rfl | h
      · rw [hstep]
        exact List.rel_of_sorted_cons hs _ (getD_last_mem _ (by simp))
      · rw [hstep]
        exact ih hsk x h

theorem quantileLinear_zero_le {xs : List ℚ} {x : ℚ} (hx : x ∈ xs) :
    quantileLinear xs 0 ≤ x := by
  have hval : quantileLinear xs 0 = nthSorted xs 0 := by
    unfold quantileLinear
    norm_num
  rw [hval]
  exact sorted_head_le (sortQ_sorted xs) (mem_sortQ hx)

theorem le_quantileLinear_one {xs : List ℚ} {x : ℚ} (hx : x ∈ xs) :
    x ≤ quantileLinear xs 1 := by
  have hne : xs ≠ [] := by rintro rfl; simp at hx
  have hlen : 1 ≤ xs.length := List.length_pos.mpr hne
  have hcast : (1 : ℚ) * ((xs.length : ℚ) - 1) = ((xs.length - 1 : ℕ) : ℚ) := by
    rw [one_mul, Nat.cast_sub hlen, Nat.cast_one]
  have hfloor : (Int.floor ((1 : ℚ) * ((xs.length : ℚ) - 1))).toNat = xs.length - 1 := by
    rw [hcast, Int.floor_natCast, Int.toNat_natCast]
  have hval : quantileLinear xs 1 = nthSorted xs (xs.length - 1) := by
    unfold quantileLinear
    rw [hfloor, if_neg (by omega)]
  rw [hval]
  have hlast := sorted_le_last (sortQ xs) (sortQ_sorted xs) x (mem_sortQ hx)
  unfold nthSorted
  rwa [length_sortQ] at hlast

theorem binIdxAux_ge : ∀ (rest : List ℚ) (i j : Nat) (x : ℚ),
    binIdxAux rest i x = some j → i ≤ j := by
  intro rest
  induction rest with
  | nil => intro i j x h; simp [binIdxAux] at h
  | cons hi tl ih =>
    intro i j x h
    by_cases hle : x ≤ hi
    · simp [binIdxAux, hle] at h
      omega
    · simp [binIdxAux, hle] at h
      exact Nat.le_of_succ_le (ih (i + 1) j x h)

theorem binIdxAux_mono : ∀ (rest : List ℚ) (i jx jy : Nat) (x y : ℚ), x ≤ y →
    binIdxAux rest i x = some jx → binIdxAux rest i y = some jy → jx ≤ jy := by
  intro rest
  induction rest with
  | nil => intro i jx jy x y _ h; simp [binIdxAux] at h
  | cons hi tl ih =>
    intro i jx jy x y hxy hx hy
    by_cases hyh : y ≤ hi
    · have hxh : x ≤ hi := le_trans hxy hyh
      simp [binIdxAux, hxh] at hx
      simp [binIdxAux, hyh] at hy
      omega
    · by_cases hxh : x ≤ hi
      · simp [binIdxAux, hxh] at hx
        simp [binIdxAux, hyh] at hy
        have := binIdxAux_ge tl (i + 1) jy y hy
        omega
      · simp [binIdxAux, hxh] at hx
        simp [binIdxAux, hyh] at hy
        exact ih (i + 1) jx jy x y hxy hx hy

theorem binIdxAux_total : ∀ (rest : List ℚ) (i : Nat) (x : ℚ),
    (∃ e ∈ rest, x ≤ e) →
    ∃ j, binIdxAux rest i x = some j ∧ j < i + rest.length := by
  intro rest
  induction rest with
  | nil => intro i x h; simp at h
  | cons hi tl ih =>
    intro i x h
    by_cases hle : x ≤ hi
    · exact ⟨i, by simp [binIdxAux, hle], by simp⟩
    · obtain ⟨e, he, hxe⟩ := h
      rcases List.mem_cons.mp he with rfl | he2
      · exact absurd hxe hle
      · obtain ⟨j, hj, hjlt⟩ := ih (i + 1) x ⟨e, he2, hxe⟩
        refine ⟨j, by simp [binIdxAux, hle, hj], ?_⟩
        simp only [List.length_cons]
        omega

/-- C2 counterexample: on the concrete table whose five households have
1, 2, 3, 4 and 5 distinct baskets the qcut succeeds (edges 1, 2, 3, 4, 5),
but two households land in the Rare bucket while only one lands in the
Occasional bucket, so the four buckets are not equal-population. -/
theorem C2_frequency_segment_counterexample :
    households cexTable = [1, 2, 3, 4, 5] ∧
    frequencySegment cexTable 1 = some (some "Rare") ∧
    frequencySegment cexTable 2 = some (some "Rare") ∧
    frequencySegment cexTable 3 = some (some "Occasional") ∧
    frequencySegment cexTable 4 = some (some "Frequent") ∧
    frequencySegment cexTable 5 = some (some "Very Frequent") := by
  have hhs : households cexTable = [1, 2, 3, 4, 5] := by decide
  have hb1 : basketCount cexTable 1 = 1 := by decide
  have hb2 : basketCount cexTable 2 = 2 := by decide
  have hb3 : basketCount cexTable 3 = 3 := by decide
  have hb4 : basketCount cexTable 4 = 4 := by decide
  have hb5 : basketCount cexTable 5 = 5 := by decide
  have hbc : basketCounts cexTable = [1, 2, 3, 4, 5] := by
    rw [basketCounts, hhs]
    simp only [List.map_cons, List.map_nil, hb1, hb2, hb3, hb4, hb5]
    norm_num
  have hsort : sortQ [(1 : ℚ), 2, 3, 4, 5] = [1, 2, 3, 4, 5] := by
    norm_num [sortQ, List.insertionSort, List.orderedInsert]
  have ht0 : Int.toNat 0 = 0 := rfl
  have ht1 : Int.toNat 1 = 1 := rfl
  have ht2 : Int.toNat 2 = 2 := rfl
  have ht3 : Int.toNat 3 = 3 := rfl
  have ht4 : Int.toNat 4 = 4 := rfl
  have hq0 : quantileLinear [(1 : ℚ), 2, 3, 4, 5] 0 = 1 := by
    unfold quantileLinear nthSorted
    rw [hsort]
    norm_num [ht0, List.getD]
  have hq25 : quantileLinear [(1 : ℚ), 2, 3, 4, 5] (1/4) = 2 := by
    unfold quantileLinear nthSorted
    rw [hsort]
    norm_num [ht1, List.getD]
  have hq50 : quantileLinear [(1 : ℚ), 2, 3, 4, 5] (1/2) = 3 := by
    unfold quantileLinear nthSorted
    rw [hsort]
    norm_num [ht2, List.getD]
  have hq75 : quantileLinear [(1 : ℚ), 2, 3, 4, 5] (3/4) = 4 := by
    unfold quantileLinear nthSorted
    rw [hsort]
    norm_num [ht3, List.getD]
  have hq100 : quantileLinear [(1 : ℚ), 2, 3, 4, 5] 1 = 5 := by
    unfold quantileLinear nthSorted
    rw [hsort]
    norm_num [ht4, List.getD]
  have hedges : qcutEdges4 [(1 : ℚ), 2, 3, 4, 5] = [1, 2, 3, 4, 5] := by
    rw [qcutEdges4, hq0, hq25, hq50, hq75, hq100]
  have hnodup : ([(1 : ℚ), 2, 3, 4, 5] : List ℚ).Nodup := by
    norm_num [List.nodup_cons, List.mem_cons]
  have hfs : ∀ hh : Nat, frequencySegment cexTable hh
      = some ((qcutBinIdx [(1 : ℚ), 2, 3, 4, 5] ((basketCount cexTable hh : ℚ))).bind
          (fun i => freqLabels[i]?)) := by
    intro hh
    rw [frequencySegment, qcut4, hbc, hedges, if_pos hnodup]
  refine ⟨hhs, ?_, ?_, ?_, ?_, ?_⟩ <;>
    rw [hfs] <;>
    simp only [hb1, hb2, hb3, hb4, hb5] <;>
    norm_num [qcutBinIdx, binIdxAux, freqLabels]

/-- C2 (amended): for every household present in the transaction table,
the qcut of create_customer_features fails exactly when the five quartile
edges of basket_count are not pairwise distinct; when they are distinct,
each household receives one of the four labels Rare, Occasional, Frequent,
Very Frequent, its bin index is below 4, and a household with a smaller or
equal basket_count never receives a later label (the labels follow the
order of basket_count).  Bucket populations are only approximately equal. -/
theorem C2_frequency_segment_quartiles (t : List TransRow) (hh hh2 : Nat)
    (hmem : hh ∈ households t) (hmem2 : hh2 ∈ households t) :
    (frequencySegment t hh = none ↔ ¬ (qcutEdges4 (basketCounts t)).Nodup) ∧
    ((qcutEdges4 (basketCounts t)).Nodup →
      ∃ i lab, i < 4 ∧
        qcutBinIdx (qcutEdges4 (basketCounts t)) ((basketCount t hh : ℚ)) = some i ∧
        freqLabels[i]? = some lab ∧
        frequencySegment t hh = some (some lab) ∧
        (basketCount t hh ≤ basketCount t hh2 →
          ∀ j, qcutBinIdx (qcutEdges4 (basketCounts t)) ((basketCount t hh2 : ℚ))
              = some j → i ≤ j)) := by
  constructor
  · by_cases h : (qcutEdges4 (basketCounts t)).Nodup <;>
      simp [frequencySegment, qcut4, h]
  · intro hnd
    have hx : ((basketCount t hh : ℚ)) ∈ basketCounts t :=
      List.mem_map_of_mem _ hmem
    have hlow : quantileLinear (basketCounts t) 0 ≤ (basketCount t hh : ℚ) :=
      quantileLinear_zero_le hx
    have hhigh : ((basketCount t hh : ℚ)) ≤ quantileLinear (basketCounts t) 1 :=
      le_quantileLinear_one hx
    obtain ⟨i, hbin, hilt⟩ :
        ∃ i, binIdxAux [quantileLinear (basketCounts t) (1/4),
            quantileLinear (basketCounts t) (1/2),
            quantileLinear (basketCounts t) (3/4),
            quantileLinear (basketCounts t) 1] 0 ((basketCount t hh : ℚ)) = some i ∧
          i < 4 := by
      obtain ⟨j, hj, hjlt⟩ := binIdxAux_total
        [quantileLinear (basketCounts t) (1/4), quantileLinear (basketCounts t) (1/2),
         quantileLinear (basketCounts t) (3/4), quantileLinear (basketCounts t) 1]
        0 ((basketCount t hh : ℚ))
        ⟨quantileLinear (basketCounts t) 1, by simp, hhigh⟩
      refine ⟨j, hj, ?_⟩
      simp only [List.length_cons, List.length_nil] at hjlt
      omega
    have hqbin : qcutBinIdx (qcutEdges4 (basketCounts t)) ((basketCount t hh : ℚ))
        = some i := by
      rw [qcutEdges4, qcutBinIdx, if_neg (not_lt.mpr hlow)]
      exact hbin
    obtain ⟨lab, hlab⟩ : ∃ lab, freqLabels[i]? = some lab := by
      interval_cases i <;> exact ⟨_, rfl⟩
    refine ⟨i, lab, hilt, hqbin, hlab, ?_, ?_⟩
    · unfold frequencySegment qcut4
      rw [if_pos hnd, hqbin]
      simp [hlab]
    · intro hle j hj
      have hx2 : ((basketCount t hh2 : ℚ)) ∈ basketCounts t :=
        List.mem_map_of_mem _ hmem2
      have hlow2 : quantileLinear (basketCounts t) 0 ≤ (basketCount t hh2 : ℚ) :=
        quantileLinear_zero_le hx2
      have hj2 : binIdxAux [quantileLinear (basketCounts t) (1/4),
          quantileLinear (basketCounts t) (1/2),
          quantileLinear (basketCounts t) (3/4),
          quantileLinear (basketCounts t) 1] 0 ((basketCount t hh2 : ℚ)) = some j := by
        rw [qcutEdges4, qcutBinIdx] at hj
        rwa [if_neg (not_lt.mpr hlow2)] at hj
      exact binIdxAux_mono _ 0 i j _ _ (by exact_mod_cast hle) hbin hj2

/-- Witness for the amended C2: the failure characterisation instantiated
on the concrete five-household table. -/
theorem C2_frequency_segment_quartiles_witness :
    frequencySegment cexTable 1 = none ↔
      ¬ (qcutEdges4 (basketCounts cexTable)).Nodup :=
  (C2_frequency_segment_quartiles cexTable 1 2 (by decide) (by decide)).1


/-- C3 (code bug): the imputation line assigns the column the return value
of an inplace fillna call, which is None; the assignment therefore wipes
the whole column to missing instead of imputing.  On the failing input,
a column holding the string 35-44 and one missing value, the code yields
an all-missing column, while the fillna semantics the claim describes
keeps 35-44 and writes Unknown. -/
theorem C3_demographic_imputation_bug :
    imputeDemographicCol [Cell.str "35-44", Cell.null] = [Cell.null, Cell.null] ∧
    fillnaSeries (Cell.str "Unknown") [Cell.str "35-44", Cell.null]
      = [Cell.str "35-44", Cell.str "Unknown"] ∧
    imputeDemographicCol [Cell.str "35-44", Cell.null]
      ≠ fillnaSeries (Cell.str "Unknown") [Cell.str "35-44", Cell.null] := by
  refine ⟨rfl, ?_, ?_⟩ <;> decide

theorem lookupCol_append_left {l1 l2 : List (String × List ℚ)} {c : String}
    {v : List ℚ} (h : lookupCol l1 c = some v) :
    lookupCol (l1 ++ l2) c = some v := by
  induction l1 with
  | nil => simp [lookupCol] at h
  | cons p rest ih =>
    by_cases hp : p.1 = c
    · simp only [lookupCol, if_pos hp] at h
      simp only [List.cons_append, lookupCol, if_pos hp]
      exact h
    · simp only [lookupCol, if_neg hp] at h
      simp only [List.cons_append, lookupCol, if_neg hp]
      exact ih h

theorem lookupCol_filter_notSel {cols : List (String × List ℚ)}
    {sel : List String} {c : String} (hc : c ∉ sel) :
    lookupCol (cols.filter (fun p => !decide (p.1 ∈ sel))) c = lookupCol cols c := by
  induction cols with
  | nil => rfl
  | cons p rest ih =>
    by_cases hmemp : p.1 ∈ sel
    · have hp : p.1 ≠ c := fun h => hc (h ▸ hmemp)
      have hfil : (p :: rest).filter (fun q => !decide (q.1 ∈ sel))
          = rest.filter (fun q => !decide (q.1 ∈ sel)) := by
        simp [List.filter_cons, hmemp]
      rw [hfil, ih]
      simp only [lookupCol, if_neg hp]
    · have hfil : (p :: rest).filter (fun q => !decide (q.1 ∈ sel))
          = p :: rest.filter (fun q => !decide (q.1 ∈ sel)) := by
        simp [List.filter_cons, hmemp]
      rw [hfil]
      by_cases hp : p.1 = c
      · simp only [lookupCol, if_pos hp]
      · simp only [lookupCol, if_neg hp]
        exact ih

theorem lookupCol_filterMap_notSel (cols : List (String × List ℚ))
    (scaler : List ℚ → List ℚ) {sel : List String} {c : String} (hc : c ∉ sel) :
    lookupCol (sel.filterMap
        (fun c2 => (lookupCol cols c2).map (fun v => (c2, scaler v)))) c = none := by
  induction sel with
  | nil => rfl
  | cons c2 tl ih =>
    have hc2 : c2 ≠ c := by
      intro h
      exact hc (h ▸ List.mem_cons_self c2 tl)
    have htl : c ∉ tl := fun h => hc (List.mem_cons_of_mem _ h)
    cases hl : lookupCol cols c2 with
    | none => simpa [List.filterMap_cons, hl] using ih htl
    | some v =>
      simp only [List.filterMap_cons, hl, Option.map_some]
      simp only [lookupCol, if_neg hc2]
      exact ih htl

/-- C4 (code bug): the scaling list of the data-processing script names
days_since_last_purchase, a column that does not exist in the
customer-feature table; the actual recency column is not in the list, so
for any fitted scaler and any table the recency column passes through to
the model-ready output unchanged instead of z-score scaled. -/
theorem C4_recency_not_scaled (scaler : List ℚ → List ℚ)
    (cols : List (String × List ℚ)) (v : List ℚ)
    (h : lookupCol cols "recency" = some v) :
    "recency" ∉ num_cols ∧
    "days_since_last_purchase" ∈ num_cols ∧
    lookupCol (scaleCols scaler cols) "recency" = some v := by
  have hnot : "recency" ∉ num_cols := by decide
  have hsel : "recency" ∉ numCols2 cols := by
    intro hmem
    exact hnot (List.mem_of_mem_filter hmem)
  refine ⟨hnot, by decide, ?_⟩
  unfold scaleCols
  exact lookupCol_append_left ((lookupCol_filter_notSel hsel).trans h)

/-- Witness for C4: on a one-column table holding recency values 10 and 20,
the output of the scaling step still holds 10 and 20 unchanged. -/
theorem C4_recency_not_scaled_witness :
    "recency" ∉ num_cols ∧
    "days_since_last_purchase" ∈ num_cols ∧
    lookupCol (scaleCols (fun l => l) [("recency", [10, 20])]) "recency"
      = some [10, 20] :=
  C4_recency_not_scaled (fun l => l) [("recency", [10, 20])] [10, 20]
    (by simp [lookupCol])

theorem argminIdxAux_lt : ∀ (l : List ℚ) (i : Nat) (bv : ℚ) (best : Nat),
    best < i → argminIdxAux l i bv best < i + l.length := by
  intro l
  induction l with
  | nil =>
    intro i bv best h
    simp only [argminIdxAux, List.length_nil]
    omega
  | cons x xs ih =>
    intro i bv best h
    simp only [argminIdxAux, List.length_cons]
    by_cases hx : x < bv
    · rw [if_pos hx]
      have := ih (i + 1) x i (by omega)
      omega
    · rw [if_neg hx]
      have := ih (i + 1) bv best (by omega)
      omega

theorem argminIdx_lt {l : List ℚ} (h : l ≠ []) : argminIdx l < l.length := by
  cases l with
  | nil => exact absurd rfl h
  | cons x xs =>
    simp only [argminIdx, List.length_cons]
    have := argminIdxAux_lt xs 1 x 0 (by omega)
    omega

/-- C5: the elbow search fits one model for each k from 1 to 10 with seed
37, recording the inertias in increasing order of k; the final model is fit
with exactly k = 5 clusters and seed 42, and its predicted labels are the
ones attached to the output table. -/
theorem C5_elbow_range_and_final_k (M : KMeansModel) (model : List (List ℚ))
    (orig : DF) :
    k_range = [1, 2, 3, 4, 5, 6, 7, 8, 9, 10] ∧
    elbowInertias M model
      = [inertiaOf (M.centroids 37 1 model) model,
         inertiaOf (M.centroids 37 2 model) model,
         inertiaOf (M.centroids 37 3 model) model,
         inertiaOf (M.centroids 37 4 model) model,
         inertiaOf (M.centroids 37 5 model) model,
         inertiaOf (M.centroids 37 6 model) model,
         inertiaOf (M.centroids 37 7 model) model,
         inertiaOf (M.centroids 37 8 model) model,
         inertiaOf (M.centroids 37 9 model) model,
         inertiaOf (M.centroids 37 10 model) model] ∧
    optimal_k = 5 ∧ elbowSeed = 37 ∧ finalSeed = 42 ∧
    (runClusteringScript M model orig).1 = elbowInertias M model ∧
    (runClusteringScript M model orig).2
      = attachClusterCol orig (predictLabels (M.centroids 42 5 model) model) :=
  ⟨rfl, rfl, rfl, rfl, rfl, rfl, rfl⟩

/-- C6: the segmented table holds every row of the original table with its
original cells unchanged, extended by exactly one new cluster column whose
value is the cluster label of the row, an integer below 5. -/
theorem C6_segmented_output (M : KMeansModel) (orig : DF) (model : List (List ℚ))
    (hlen : model.length = orig.rows.length) (hk : 5 ≤ model.length)
    (hcl : "cluster" ∉ orig.header) :
    (attachClusterCol orig (finalClusters M model)).header
        = orig.header ++ ["cluster"] ∧
    (attachClusterCol orig (finalClusters M model)).header.count "cluster" = 1 ∧
    (finalClusters M model).length = orig.rows.length ∧
    (attachClusterCol orig (finalClusters M model)).rows
        = (orig.rows.zip (finalClusters M model)).map
            (fun rl => rl.1 ++ [Cell.num (rl.2 : ℚ)]) ∧
    (attachClusterCol orig (finalClusters M model)).rows.length
        = orig.rows.length ∧
    (finalClusters M model).all (fun c => decide (c < 5)) = true := by
  have hlab : (finalClusters M model).length = model.length := by
    simp [finalClusters, predictLabels]
  have hcents : (M.centroids finalSeed optimal_k model).length = 5 :=
    M.centroids_len finalSeed optimal_k model (by simpa [optimal_k] using hk)
  refine ⟨rfl, ?_, by omega, rfl, ?_, ?_⟩
  · simp [attachClusterCol, List.count_append, List.count_eq_zero.mpr hcl]
  · simp only [attachClusterCol, List.length_map, List.length_zip]
    omega
  · rw [List.all_eq_true]
    intro c hc
    simp only [finalClusters, predictLabels, List.mem_map] at hc
    obtain ⟨p, hp, rfl⟩ := hc
    have hmaplen : ((M.centroids finalSeed optimal_k model).map
        (fun cc => sqDist p cc)).length = 5 := by simp [hcents]
    have hne : ((M.centroids finalSeed optimal_k model).map
        (fun cc => sqDist p cc)) ≠ [] := by
      intro hnil
      rw [hnil] at hmaplen
      simp at hmaplen
    have hb := argminIdx_lt hne
    rw [hmaplen] at hb
    simpa using hb

/-- Witness for C6: the concrete five-point model data and five-row
original table satisfy the hypotheses, and the conclusion holds there. -/
theorem C6_segmented_output_witness :
    (attachClusterCol wOrigDF (finalClusters takeKModel wModelData)).header
        = wOrigDF.header ++ ["cluster"] ∧
    (attachClusterCol wOrigDF (finalClusters takeKModel wModelData)).header.count
        "cluster" = 1 ∧
    (finalClusters takeKModel wModelData).length = wOrigDF.rows.length ∧
    (attachClusterCol wOrigDF (finalClusters takeKModel wModelData)).rows
        = (wOrigDF.rows.zip (finalClusters takeKModel wModelData)).map
            (fun rl => rl.1 ++ [Cell.num (rl.2 : ℚ)]) ∧
    (attachClusterCol wOrigDF (finalClusters takeKModel wModelData)).rows.length
        = wOrigDF.rows.length ∧
    (finalClusters takeKModel wModelData).all (fun c => decide (c < 5)) = true :=
  C6_segmented_output takeKModel wOrigDF wModelData (by decide) (by decide)
    (by decide)

/-- C10: the clustering run is deterministic: the seeds are fixed constants
baked into the script, so two runs on equal model-ready and original tables
produce identical elbow inertias and an identical segmented table. -/
theorem C10_clustering_deterministic (M : KMeansModel)
    (model1 model2 : List (List ℚ)) (orig1 orig2 : DF)
    (hm : model1 = model2) (ho : orig1 = orig2) :
    runClusteringScript M model1 orig1 = runClusteringScript M model2 orig2 := by
  rw [hm, ho]

/-- Witness for C10: two runs on the concrete inputs coincide. -/
theorem C10_clustering_deterministic_witness :
    runClusteringScript takeKModel wModelData wOrigDF
      = runClusteringScript takeKModel wModelData wOrigDF :=
  C10_clustering_deterministic takeKModel wModelData wModelData wOrigDF wOrigDF
    rfl rfl

/-- C7: process_datasets writes exactly 13 distinct files: the eight
processed raw tables followed by basket_fact, customer_features,
segment_profile, product_segment_performance and top_products_by_segment. -/
theorem C7_thirteen_processed_files :
    datasets_to_save.length = 13 ∧
    datasets_to_save.Nodup ∧
    datasets_to_save
      = ["campaign_desc_processed.csv", "campaign_table_processed.csv",
         "causal_data_processed.csv", "coupon_redempt_processed.csv",
         "coupon_processed.csv", "hh_demographic_processed.csv",
         "product_processed.csv", "transaction_data_processed.csv"]
        ++ ["basket_fact.csv", "customer_features.csv", "segment_profile.csv",
            "product_segment_performance.csv", "top_products_by_segment.csv"] :=
  ⟨rfl, by decide, rfl⟩

theorem readSeq_fail {ex : String → Bool} : ∀ {fs : List String} {f : String},
    f ∈ fs → ex f = false → (readSeq ex fs).2 = false := by
  intro fs
  induction fs with
  | nil => intro f h; simp at h
  | cons g gs ih =>
    intro f hf hmiss
    by_cases hg : ex g
    · rcases List.mem_cons.mp hf with rfl | hf2
      · rw [hg] at hmiss
        exact absurd hmiss (by simp)
      · simp only [readSeq, if_pos hg]
        exact ih hf2 hmiss
    · simp only [readSeq, if_neg hg]

theorem readSeq_events {ex : String → Bool} : ∀ {fs : List String} {e : Ev},
    e ∈ (readSeq ex fs).1 → ∃ g, e = Ev.readCsv g := by
  intro fs
  induction fs with
  | nil => intro e h; simp [readSeq] at h
  | cons g gs ih =>
    intro e he
    by_cases hg : ex g
    · simp only [readSeq, if_pos hg] at he
      rcases List.mem_cons.mp he with rfl | he2
      · exact ⟨g, rfl⟩
      · exact ih he2
    · simp only [readSeq, if_neg hg] at he
      rcases List.mem_cons.mp he with rfl | he2
      · exact ⟨g, rfl⟩
      · simp at he2

/-- C8 counterexample: with the raw CSVs missing, the transform script
prints no error message of its own; it ends with an uncaught exception at
the first read.  The claim that every script prints an error message and
exits is false for transform. -/
theorem C8_transform_prints_no_error :
    Ev.errMsg ∉ (transformRun noFiles).1 ∧
    (transformRun noFiles).2 = Outcome.uncaught := by
  constructor
  · decide
  · decide

/-- C8 (amended): on a missing required input no script writes any output,
but the scripts stop differently: the transform script ends with an
uncaught exception and prints no error message of its own; the
data-processing script prints its not-found message, still continues to
the read attempt, and ends with an uncaught exception; only the clustering
script prints an error message and exits with code 1. -/
theorem C8_missing_input_behaviour (ex : String → Bool) (f : String)
    (hf : f ∈ rawFiles) (hmiss : ex f = false) :
    ((transformRun ex).2 = Outcome.uncaught ∧
      Ev.errMsg ∉ (transformRun ex).1 ∧
      (transformRun ex).1.all (fun e => !isWriteEv e) = true) ∧
    dataProcessingRun false = ([Ev.errMsg, Ev.readCsv cfPath], Outcome.uncaught) ∧
    clusteringRun false false
      = ([Ev.readCsv modelReadyPath, Ev.errMsg], Outcome.exitedWith 1) ∧
    clusteringRun false true
      = ([Ev.readCsv modelReadyPath, Ev.errMsg], Outcome.exitedWith 1) ∧
    clusteringRun true false
      = ([Ev.readCsv modelReadyPath, Ev.info, Ev.readCsv cfPath, Ev.errMsg],
         Outcome.exitedWith 1) := by
  have hfail : (readSeq ex rawFiles).2 = false := readSeq_fail hf hmiss
  have htrace : (transformRun ex).1
      = Ev.info :: Ev.info :: (readSeq ex rawFiles).1 := by
    simp [transformRun, hfail]
  refine ⟨⟨by simp [transformRun, hfail], ?_, ?_⟩, rfl, rfl, rfl, rfl⟩
  · rw [htrace]
    intro hmem
    rcases List.mem_cons.mp hmem with h | h
    · exact absurd h (by decide)
    rcases List.mem_cons.mp h with h2 | h2
    · exact absurd h2 (by decide)
    obtain ⟨g, hg⟩ := readSeq_events h2
    exact absurd hg (by simp)
  · rw [htrace, List.all_eq_true]
    intro e he
    rcases List.mem_cons.mp he with rfl | h
    · decide
    rcases List.mem_cons.mp h with rfl | h2
    · decide
    obtain ⟨g, hg⟩ := readSeq_events h2
    subst hg
    rfl

/-- Witness for the amended C8: the file-system state with every file
missing, at the first raw file. -/
theorem C8_missing_input_behaviour_witness :
    dataProcessingRun false = ([Ev.errMsg, Ev.readCsv cfPath], Outcome.uncaught) :=
  (C8_missing_input_behaviour noFiles "campaign_desc.csv" (by decide) rfl).2.1
